import Mathlib

/-!
Verification of the task scheduling and event distribution engine of the
ai-agent-dashboard server against its specification.

The development shallowly embeds the relevant Python modules:
  - app/api/system.py            (throttle endpoint)
  - app/celery_worker/tasks.py   (worker step loop, pause and throttle flags,
                                  failure callback, adjust_throttle task)
  - app/celery_worker/monitoring.py (dead letter queue handler)
  - app/celery_worker/agent_simulator.py (agent profiles, step calculation)
  - app/services/redis_pubsub.py (publish_event)
  - app/services/event_aggregator.py (batch aggregation, priority queue)
  - app/api/stream.py            (SSE connection queue)

Mutable Redis state is modelled as an explicit record threaded through the
operations; machine floats are modelled as rationals; fallible operations
return sum types or option types.
-/

namespace AgentDashboard

/-- State of the Redis keys touched by the throttle, pause and failure paths.
Field `systemThrottleApi` models key "system:throttle" (written by POST
/system/throttle in app/api/system.py), `systemThrottleRate` models key
"system_throttle_rate" (written by the adjust_throttle Celery task and read
by the worker step loop), `systemPaused` models presence of key
"system_paused", and the three lists model the key sets
"active_tasks:*", "task_failures:*" and the "dead_letter_queue" sorted set
(as the list of task ids of its entries). -/
structure RedisState where
  systemThrottleApi : Option Rat
  systemThrottleRate : Option Rat
  systemPaused : Bool
  activeTasks : List String
  taskFailures : List String
  deadLetterQueue : List String
deriving DecidableEq, Repr

/-- Response body of POST /system/throttle (app/api/system.py, set_throttle). -/
structure ThrottleResponse where
  status : String
  rate : Rat
deriving DecidableEq, Repr

/-- Embedding of set_throttle (app/api/system.py lines 32-41): the endpoint
stores the submitted rate under "system:throttle" unconditionally and
returns a success payload; it performs no range validation. -/
def setThrottle (st : RedisState) (rate : Rat) : RedisState × ThrottleResponse :=
  ({ st with systemThrottleApi := some rate }, { status := "throttled", rate := rate })

/-- Result of the adjust_throttle Celery task: either the applied rate or the
error dictionary produced by the except branch. -/
inductive AdjustThrottleResult where
  | applied (rate : Rat)
  | failed (msg : String)
deriving DecidableEq, Repr

/-- Embedding of adjust_throttle (app/celery_worker/tasks.py lines 754-789):
rates outside [0.1, 2.0] raise ValueError, which the except branch turns
into an error result, leaving "system_throttle_rate" unchanged; rates inside
the range are stored. -/
def adjustThrottle (st : RedisState) (rate : Rat) : RedisState × AdjustThrottleResult :=
  if (1 : Rat)/10 ≤ rate ∧ rate ≤ 2 then
    ({ st with systemThrottleRate := some rate }, .applied rate)
  else
    (st, .failed "Throttle rate must be between 0.1 and 2.0")

/-- Result of one simulated processing step (agent_simulator.process_step):
token count, simulated duration in seconds, and the failure flag. -/
structure StepResult where
  tokens : Nat
  duration : Rat
  shouldFail : Bool
deriving DecidableEq, Repr

/-- Additional sleep inserted by the throttling check at the end of each step
(tasks.py lines 155-157): when the stored rate is below 1.0 the worker sleeps
an extra (1.0 - rate) * 2 seconds; otherwise nothing is added. -/
def throttleExtraSleep (rate : Rat) : Rat :=
  if rate < 1 then (1 - rate) * 2 else 0

/-- Total sleep performed for one step of process_agent_task (tasks.py lines
151-157): the step duration, plus the throttle extra sleep computed from key
"system_throttle_rate" (defaulting to 1.0 when the key is absent, mirroring
`float(redis_client.get(...) or 1.0)`). -/
def stepSleep (st : RedisState) (duration : Rat) : Rat :=
  duration + throttleExtraSleep (st.systemThrottleRate.getD 1)

/-- Observable action of one iteration of the worker step loop: a progress
event for a begun step together with the sleep it performs, or the
exception raised when the step result signals failure. -/
inductive StepEvent where
  | progress (step : Nat) (sleep : Rat)
  | failed (step : Nat)
deriving DecidableEq, Repr

/-- Embedding of the body of the `for step in range(total_steps)` loop of
process_agent_task (tasks.py lines 120-157), run from step index `i` for
`n` further steps. Each iteration reads only key "system_throttle_rate";
the loop never reads key "system_paused". A failing step raises and ends
the loop. -/
def runStepsFrom (st : RedisState) (stepOf : Nat → StepResult) : Nat → Nat → List StepEvent
  | _, 0 => []
  | i, Nat.succ k =>
    let r := stepOf i
    if r.shouldFail then [StepEvent.failed i]
    else StepEvent.progress i (stepSleep st r.duration) :: runStepsFrom st stepOf (i + 1) k

/-- The full step loop of process_agent_task, from step 0 to total. -/
def runStepLoop (st : RedisState) (stepOf : Nat → StepResult) (total : Nat) : List StepEvent :=
  runStepsFrom st stepOf 0 total

/-- Embedding of the final-failure path of a task: the except branch of
process_agent_task (tasks.py lines 195-199) deletes "active_tasks:id", and
CallbackTask.on_failure (tasks.py lines 35-54) stores the failure under
"task_failures:id". No write to "dead_letter_queue" occurs on this path. -/
def onFailureFinal (st : RedisState) (taskId : String) : RedisState :=
  { st with
      activeTasks := st.activeTasks.filter (fun t => t != taskId),
      taskFailures :=
        if taskId ∈ st.taskFailures then st.taskFailures else taskId :: st.taskFailures }

/-- Embedding of DeadLetterQueueHandler.add_to_dlq (monitoring.py lines
409-445), which zadds a snapshot onto "dead_letter_queue". No caller of this
method exists anywhere in the repository. -/
def addToDlq (st : RedisState) (taskId : String) : RedisState :=
  { st with deadLetterQueue := taskId :: st.deadLetterQueue }

/-- Test fixture: the empty Redis state. -/
def emptyRedis : RedisState :=
  { systemThrottleApi := none, systemThrottleRate := none, systemPaused := false,
    activeTasks := [], taskFailures := [], deadLetterQueue := [] }

/-- Test fixture: a constant non-failing step result stream with duration
0.1 seconds per step. -/
def constSteps : Nat → StepResult := fun _ => { tokens := 100, duration := 1/10, shouldFail := false }

/-- The AgentType enumeration of agent_simulator.py (lines 19-32). -/
inductive AgentType where
  | gpt4
  | gpt4turbo
  | gpt35turbo
  | claude3opus
  | claude3sonnet
  | claude3haiku
  | geminiPro
  | geminiUltra
  | llama270b
  | llama213b
  | mistralLarge
  | mistralMedium
deriving DecidableEq, Repr

/-- The `.value` string of each AgentType member. -/
def AgentType.value : AgentType → String
  | .gpt4 => "gpt-4"
  | .gpt4turbo => "gpt-4-turbo"
  | .gpt35turbo => "gpt-3.5-turbo"
  | .claude3opus => "claude-3-opus"
  | .claude3sonnet => "claude-3-sonnet"
  | .claude3haiku => "claude-3-haiku"
  | .geminiPro => "gemini-pro"
  | .geminiUltra => "gemini-ultra"
  | .llama270b => "llama-2-70b"
  | .llama213b => "llama-2-13b"
  | .mistralLarge => "mistral-large"
  | .mistralMedium => "mistral-medium"

/-- All members of the enumeration, in declaration order. -/
def allAgentTypes : List AgentType :=
  [.gpt4, .gpt4turbo, .gpt35turbo, .claude3opus, .claude3sonnet, .claude3haiku,
   .geminiPro, .geminiUltra, .llama270b, .llama213b, .mistralLarge, .mistralMedium]

/-- Embedding of the enum constructor call `AgentType(s)`: the member whose
value equals `s`, or none (Python raises ValueError) when no member matches. -/
def findAgentType (s : String) : Option AgentType :=
  allAgentTypes.find? (fun a => a.value == s)

/-- Lowering of one character, modelling Python str.lower on the ASCII
range the agent-type strings use. -/
def charLower (c : Char) : Char :=
  if 65 ≤ c.toNat ∧ c.toNat ≤ 90 then Char.ofNat (c.toNat + 32) else c

/-- Lowering of a string: str.lower applied to the agent-type argument. -/
def pyLower (s : String) : String :=
  String.mk (s.data.map charLower)

/-- Embedding of AgentSimulator.__init__ (agent_simulator.py lines 177-197):
the lowered agent-type string is looked up in the enumeration; the ValueError
raised for an unknown string is caught and the simulator defaults to the
GPT-3.5 Turbo profile. Construction therefore never fails. -/
def initAgentType (agentTypeStr : String) : AgentType :=
  (findAgentType (pyLower agentTypeStr)).getD .gpt35turbo

/-- Speed multiplier of each agent profile (AGENT_PROFILES, agent_simulator.py
lines 54-175). -/
def speedMultiplier : AgentType → Rat
  | .gpt4 => 8/10
  | .gpt4turbo => 12/10
  | .gpt35turbo => 15/10
  | .claude3opus => 7/10
  | .claude3sonnet => 1
  | .claude3haiku => 2
  | .geminiPro => 11/10
  | .geminiUltra => 9/10
  | .llama270b => 6/10
  | .llama213b => 13/10
  | .mistralLarge => 9/10
  | .mistralMedium => 14/10

/-- Maximum complexity of each agent profile (AGENT_PROFILES). -/
def profileMaxComplexity : AgentType → Int
  | .gpt4 => 10
  | .gpt4turbo => 10
  | .gpt35turbo => 7
  | .claude3opus => 10
  | .claude3sonnet => 8
  | .claude3haiku => 6
  | .geminiPro => 8
  | .geminiUltra => 10
  | .llama270b => 8
  | .llama213b => 6
  | .mistralLarge => 9
  | .mistralMedium => 7

/-- Python `int(q)`: truncation of a rational toward zero. -/
def pyInt (q : Rat) : Int :=
  if 0 ≤ q then ⌊q⌋ else -⌊-q⌋

/-- Embedding of AgentSimulator.calculate_steps (agent_simulator.py lines
199-219). The draw `random.uniform(8, 15)` is passed in as the parameter `r`;
the complexity is clamped to the profile maximum, multiplied by `r` and
truncated, divided by the speed multiplier and truncated, and floored at 5. -/
def calculateSteps (a : AgentType) (complexity : Int) (r : Rat) : Int :=
  let effectiveComplexity := min complexity (profileMaxComplexity a)
  let baseSteps := pyInt ((effectiveComplexity : Rat) * r)
  let adjustedSteps := pyInt ((baseSteps : Rat) / speedMultiplier a)
  max adjustedSteps 5

/-- Success or failure of each awaited Redis call inside
RedisPublisher.publish_event (redis_pubsub.py lines 74-104): the pub/sub
broadcast and the three recent-buffer writes on key "buffer:channel". -/
structure PublishOutcome where
  publishOk : Bool
  lpushOk : Bool
  ltrimOk : Bool
  expireOk : Bool
deriving DecidableEq, Repr

/-- A Redis call either returns or raises; the Boolean outcome decides which. -/
def redisCall (ok : Bool) : Except String Unit :=
  if ok then .ok () else .error "ConnectionError"

/-- Body of the try block of publish_event: broadcast on the channel, then
lpush, ltrim and expire on the recent buffer, in that order; the first raise
aborts the rest. -/
def publishEventBody (oc : PublishOutcome) : Except String Bool := do
  redisCall oc.publishOk
  redisCall oc.lpushOk
  redisCall oc.ltrimOk
  redisCall oc.expireOk
  return true

/-- Embedding of RedisPublisher.publish_event for a known event type: the
except branch catches any raise from the try block, logs, and returns False.
The function reports True only when every call in the body succeeded. -/
def publishEvent (oc : PublishOutcome) : Bool :=
  match publishEventBody oc with
  | .ok b => b
  | .error _ => false

/-- State of one SSE connection (stream.py, class SSEConnection).
Field `maxQueueSize` is the Python attribute max_queue_size; field
`queueCapacity` is the maxsize the asyncio.Queue was constructed with, fixed
at construction time; `eventQueue` holds the queued event ids, oldest
first. -/
structure SSEConnection where
  maxQueueSize : Nat
  queueCapacity : Nat
  eventQueue : List Nat
deriving DecidableEq, Repr

/-- Embedding of SSEConnection.__init__ (stream.py lines 36-46): the attribute
max_queue_size is set to 1000 and the queue is created with
maxsize = max_queue_size, so its capacity is 1000. -/
def SSEConnection.init : SSEConnection :=
  { maxQueueSize := 1000, queueCapacity := 1000, eventQueue := [] }

/-- Embedding of the connection set-up in stream_events (stream.py lines
259-261): after the constructor has run, the attribute max_queue_size is
reassigned to max(100, buffer_size * 2); the already-constructed queue keeps
the capacity it was created with. -/
def streamEventsConn (bufferSize : Nat) : SSEConnection :=
  { SSEConnection.init with maxQueueSize := max 100 (bufferSize * 2) }

/-- Embedding of SSEConnection._handle_event for an event passing the filters
(stream.py lines 64-83): put_nowait the event; on QueueFull, get_nowait the
oldest element and put_nowait the new one; on QueueEmpty, drop the event. -/
def handleEvent (c : SSEConnection) (e : Nat) : SSEConnection :=
  if c.eventQueue.length < c.queueCapacity then
    { c with eventQueue := c.eventQueue ++ [e] }
  else
    match c.eventQueue with
    | [] => c
    | _ :: rest => { c with eventQueue := rest ++ [e] }

/-- Delivery of a list of events to a connection, in order. -/
def handleEvents (c : SSEConnection) (es : List Nat) : SSEConnection :=
  es.foldl handleEvent c

/-- An event entering the aggregator (redis_pubsub.Event as the aggregator
sees it): id, priority value (LOW=1 .. CRITICAL=4), timestamp, and the
numeric payload fields relevant to merging, as an association list mirroring
the payload dict. -/
structure AggEvent where
  id : String
  priority : Nat
  timestamp : Int
  data : List (String × Rat)
deriving DecidableEq, Repr

/-- The statistics dict produced for one mergeable numeric field
(event_aggregator.py lines 222-231). -/
structure MergeStats where
  sum : Rat
  avg : Rat
  min : Rat
  max : Rat
  count : Nat
deriving DecidableEq, Repr

/-- The values collected for a field across a batch (the `values` list of
_aggregate_data): the field's entry from each event that carries it, in
batch order. -/
def fieldValues (events : List AggEvent) (f : String) : List Rat :=
  events.filterMap (fun e => e.data.lookup f)

/-- The statistics over a nonempty value list, split as head and tail. -/
def mkStats (v : Rat) (vs : List Rat) : MergeStats :=
  let values := v :: vs
  { sum := values.sum,
    avg := values.sum / (values.length : Rat),
    min := vs.foldl min v,
    max := vs.foldl max v,
    count := values.length }

/-- The merged-field entries of the aggregated payload: one entry per
configured merge field whose value list is nonempty (event_aggregator.py
lines 216-234, numeric branch), in configuration order. -/
def buildMerged (cfg : List String) (events : List AggEvent) : List (String × MergeStats) :=
  match cfg with
  | [] => []
  | f :: rest =>
    match fieldValues events f with
    | [] => buildMerged rest events
    | v :: vs => (f, mkStats v vs) :: buildMerged rest events

/-- Python max with a key function returns the first element whose key is
maximal; this is the `latest_event` and `base_event` computation
(max(self.events, key=lambda e: e.timestamp)). -/
def argmaxTs (e : AggEvent) (es : List AggEvent) : AggEvent :=
  es.foldl (fun b x => if b.timestamp < x.timestamp then x else b) e

/-- Keys of the aggregated payload that are fixed by _aggregate_data before
the latest-data pass. -/
def reservedKeys : List String := ["batch_size", "time_span", "event_ids"]

/-- The aggregated payload built by EventBatch._aggregate_data
(event_aggregator.py lines 201-242) for a batch of two or more events. -/
structure AggregatedData where
  batchSize : Nat
  timeSpanStart : Int
  timeSpanEnd : Int
  eventIds : List String
  mergedFields : List (String × MergeStats)
  latestData : List (String × Rat)
deriving DecidableEq, Repr

/-- Embedding of EventBatch._aggregate_data on the nonempty batch
a :: rest: batch size, time span as min and max timestamp, the original
event ids, per-merge-field statistics, and the latest data for keys not
already present. -/
def aggregateData (cfg : List String) (a : AggEvent) (rest : List AggEvent) : AggregatedData :=
  let events := a :: rest
  let merged := buildMerged cfg events
  let latest := argmaxTs a rest
  { batchSize := events.length,
    timeSpanStart := (rest.map (fun e => e.timestamp)).foldl min a.timestamp,
    timeSpanEnd := (rest.map (fun e => e.timestamp)).foldl max a.timestamp,
    eventIds := events.map (fun e => e.id),
    mergedFields := merged,
    latestData := latest.data.filter
      (fun kv => !(reservedKeys.contains kv.1) && !((merged.map Prod.fst).contains kv.1)) }

/-- The single aggregated event produced from a batch of two or more events
(EventBatch.create_aggregated_event, lines 178-199): id derived from the
latest input, priority the maximum input priority, timestamp the flush
time, and the aggregated payload as data. -/
structure AggOutEvent where
  id : String
  priority : Nat
  timestamp : Int
  data : AggregatedData
deriving DecidableEq, Repr

/-- Embedding of EventBatch.create_aggregated_event: an empty batch raises
(none); a singleton batch returns its event unchanged; a larger batch
returns the aggregated event. -/
def createAggregatedEvent (cfg : List String) (now : Int) :
    List AggEvent → Option (AggEvent ⊕ AggOutEvent)
  | [] => none
  | [e] => some (Sum.inl e)
  | a :: b :: l =>
    some (Sum.inr
      { id := "aggregated_" ++ (argmaxTs a (b :: l)).id,
        priority := ((b :: l).map (fun e => e.priority)).foldl max a.priority,
        timestamp := now,
        data := aggregateData cfg a (b :: l) })

/-- Configuration of the priority-queue strategy for one event type
(AggregationConfig, restricted to the fields that strategy reads). -/
structure PQConfig where
  maxBatchSize : Nat
  maxDelaySec : Int
  mergeFields : List String
deriving DecidableEq, Repr

/-- State of the aggregator for one event type under the priority-queue
strategy: the priority queue (the heap modelled by its sorted sequence,
which has the same peek and pop-min behavior heapq provides), the open
batch with its creation time, and the events handed to the output handlers
so far. -/
structure AggPQState where
  pq : List AggEvent
  batch : Option (Int × List AggEvent)
  outputs : List (AggEvent ⊕ AggOutEvent)
deriving DecidableEq, Repr

/-- Heap order of PriorityEvent (event_aggregator.py lines 46-51): by
priority value, then by timestamp. -/
def pqKeyLE (x y : AggEvent) : Bool :=
  decide (x.priority < y.priority) ||
    (x.priority == y.priority && decide (x.timestamp ≤ y.timestamp))

/-- Heappush modelled as ordered insertion into the sorted sequence. -/
def pqInsert (e : AggEvent) : List AggEvent → List AggEvent
  | [] => [e]
  | h :: t => if pqKeyLE h e then h :: pqInsert e t else e :: h :: t

/-- Output of _flush_batch on a batch flushed at time `now`: the aggregated
event (or the lone event of a singleton batch); an empty batch outputs
nothing. -/
def flushBatchOutput (cfg : PQConfig) (now : Int) (events : List AggEvent) :
    List (AggEvent ⊕ AggOutEvent) :=
  match createAggregatedEvent cfg.mergeFields now events with
  | some x => [x]
  | none => []

/-- Embedding of EventAggregator._handle_priority_queue (event_aggregator.py
lines 361-383) at time `now`: the event is always heappushed onto the
priority queue; an event of priority HIGH (3) or above is then output
immediately and the handler returns; a lower-priority event is added to the
open batch (created now if absent), which is flushed when it reaches
max_batch_size or its age reaches max_delay. -/
def handlePriorityQueue (cfg : PQConfig) (now : Int) (st : AggPQState) (e : AggEvent) :
    AggPQState :=
  let pq1 := pqInsert e st.pq
  if 3 ≤ e.priority then
    { st with pq := pq1, outputs := st.outputs ++ [Sum.inl e] }
  else
    let createdAt := (st.batch.getD (now, [])).1
    let evs1 := (st.batch.getD (now, [])).2 ++ [e]
    if cfg.maxBatchSize ≤ evs1.length ∨ cfg.maxDelaySec ≤ now - createdAt then
      { pq := pq1, batch := none, outputs := st.outputs ++ flushBatchOutput cfg now evs1 }
    else
      { pq := pq1, batch := some (createdAt, evs1), outputs := st.outputs }

/-- Pop-min loop of _flush_priority_queue: repeatedly pop the root while its
timestamp is older than the cutoff, stopping at the first root that is not;
returns the popped events in pop order and the remaining queue. -/
def drainList (cutoff : Int) : List AggEvent → List AggEvent × List AggEvent
  | [] => ([], [])
  | h :: t =>
    if h.timestamp < cutoff then
      let p := drainList cutoff t
      (h :: p.1, p.2)
    else ([], h :: t)

/-- Embedding of EventAggregator._flush_priority_queue (event_aggregator.py
lines 454-471) at time `now`: events older than now - 1 second are popped
from the queue and output individually. -/
def flushPriorityQueue (now : Int) (st : AggPQState) : AggPQState :=
  let p := drainList (now - 1) st.pq
  { st with pq := p.2, outputs := st.outputs ++ p.1.map Sum.inl }

/-- Test fixture: the SYSTEM_ALERT priority-queue configuration
(DEFAULT_AGGREGATION_CONFIGS: max_delay 1 s, max_batch_size 5). -/
def pqCfgAlert : PQConfig := { maxBatchSize := 5, maxDelaySec := 1, mergeFields := [] }

/-- Test fixture: the empty priority-queue aggregator state. -/
def emptyPQ : AggPQState := { pq := [], batch := none, outputs := [] }

/-- Test fixture: a HIGH-priority alert event at time 0. -/
def exHigh : AggEvent := { id := "e1", priority := 3, timestamp := 0, data := [] }

/-- Test fixture: a LOW-priority alert event at time 0. -/
def exLow : AggEvent := { id := "e2", priority := 1, timestamp := 0, data := [] }

/-- Test fixture: two metrics events sharing the numeric field "tps". -/
def exM1 : AggEvent := { id := "m1", priority := 2, timestamp := 0, data := [("tps", 3)] }

/-- Test fixture: the second metrics event, later and higher priority. -/
def exM2 : AggEvent := { id := "m2", priority := 4, timestamp := 10, data := [("tps", 5)] }

/-- Evaluation helper: a property of the aggregated output of a batch,
false when the batch did not produce an aggregated event. -/
def aggOutProp (P : AggOutEvent → Prop) : Option (AggEvent ⊕ AggOutEvent) → Prop
  | some (Sum.inr o) => P o
  | _ => False

/-- Test fixture: the Redis state with throttle rate 0.5 stored. -/
def stHalf : RedisState := { emptyRedis with systemThrottleRate := some (1/2) }

/-- Test fixture: the Redis state with throttle rate 2.0 stored. -/
def stDouble : RedisState := { emptyRedis with systemThrottleRate := some 2 }

/-- Left fold of min is below its initial value. -/
theorem foldlMin_le_init {α : Type} [LinearOrder α] :
    ∀ (l : List α) (a : α), l.foldl min a ≤ a
  | [], _ => le_refl _
  | h :: t, a => le_trans (foldlMin_le_init t (min a h)) (min_le_left a h)

/-- Left fold of min is below every list element. -/
theorem foldlMin_le_mem {α : Type} [LinearOrder α] :
    ∀ (l : List α) (a x : α), x ∈ l → l.foldl min a ≤ x
  | h :: t, a, x, hx => by
    rcases List.mem_cons.mp hx with rfl | hx
    · exact le_trans (foldlMin_le_init t (min a x)) (min_le_right a x)
    · exact foldlMin_le_mem t (min a h) x hx

/-- Left fold of min is the initial value or a list element. -/
theorem foldlMin_mem {α : Type} [LinearOrder α] :
    ∀ (l : List α) (a : α), l.foldl min a = a ∨ l.foldl min a ∈ l
  | [], _ => Or.inl rfl
  | h :: t, a => by
    rcases foldlMin_mem t (min a h) with he | hm
    · rcases min_choice a h with hc | hc
      · exact Or.inl (by rw [List.foldl_cons, he, hc])
      · exact Or.inr (by rw [List.foldl_cons, he, hc]; exact List.mem_cons_self h t)
    · exact Or.inr (List.mem_cons_of_mem h hm)

/-- Left fold of max is above its initial value. -/
theorem foldlMax_init_le {α : Type} [LinearOrder α] :
    ∀ (l : List α) (a : α), a ≤ l.foldl max a
  | [], _ => le_refl _
  | h :: t, a => le_trans (le_max_left a h) (foldlMax_init_le t (max a h))

/-- Left fold of max is above every list element. -/
theorem foldlMax_mem_le {α : Type} [LinearOrder α] :
    ∀ (l : List α) (a x : α), x ∈ l → x ≤ l.foldl max a
  | h :: t, a, x, hx => by
    rcases List.mem_cons.mp hx with rfl | hx
    · exact le_trans (le_max_right a x) (foldlMax_init_le t (max a x))
    · exact foldlMax_mem_le t (max a h) x hx

/-- Left fold of max is the initial value or a list element. -/
theorem foldlMax_mem {α : Type} [LinearOrder α] :
    ∀ (l : List α) (a : α), l.foldl max a = a ∨ l.foldl max a ∈ l
  | [], _ => Or.inl rfl
  | h :: t, a => by
    rcases foldlMax_mem t (max a h) with he | hm
    · rcases max_choice a h with hc | hc
      · exact Or.inl (by rw [List.foldl_cons, he, hc])
      · exact Or.inr (by rw [List.foldl_cons, he, hc]; exact List.mem_cons_self h t)
    · exact Or.inr (List.mem_cons_of_mem h hm)

/-- The step loop does not depend on the pause flag: its trace is invariant
under any change of the systemPaused component of the state. -/
theorem runStepsFrom_pause (st : RedisState) (b : Bool) (stepOf : Nat → StepResult) :
    ∀ (n i : Nat),
      runStepsFrom { st with systemPaused := b } stepOf i n = runStepsFrom st stepOf i n
  | 0, _ => rfl
  | Nat.succ k, i => by
    by_cases hf : (stepOf i).shouldFail
    · simp [runStepsFrom, hf]
    · simp only [runStepsFrom, hf, if_false, Bool.false_eq_true]
      exact congrArg _ (runStepsFrom_pause st b stepOf k (i + 1))

/-- Every progress event of the step loop records a sleep equal to the step
duration plus the throttle extra sleep of the stored rate. -/
theorem runStepsFrom_progress_sleep (st : RedisState) (stepOf : Nat → StepResult) :
    ∀ (n j i : Nat) (s : Rat),
      StepEvent.progress i s ∈ runStepsFrom st stepOf j n →
      s = (stepOf i).duration + throttleExtraSleep (st.systemThrottleRate.getD 1)
  | 0, _, _, _, h => absurd h (List.not_mem_nil _)
  | Nat.succ k, j, i, s, h => by
    simp only [runStepsFrom] at h
    by_cases hf : (stepOf j).shouldFail
    · rw [if_pos hf] at h
      exact absurd (List.mem_singleton.mp h) (by simp)
    · rw [if_neg hf] at h
      rcases List.mem_cons.mp h with he | ht
      · obtain ⟨rfl, rfl⟩ := by simpa [StepEvent.progress.injEq] using he
        rfl
      · exact runStepsFrom_progress_sleep st stepOf k (j + 1) i s ht

/-- C1 (amended). POST /system/throttle stores any submitted rate under
"system:throttle" and reports success, performing no range validation; the
validation the spec describes lives only in the adjust_throttle worker task,
which rejects a rate outside [0.1, 2.0] with an error result that leaves the
stored "system_throttle_rate" unchanged, and stores a rate inside the
range. -/
theorem c1_throttle_validation (st : RedisState) (r : Rat) :
    ((setThrottle st r).1.systemThrottleApi = some r
      ∧ (setThrottle st r).2.status = "throttled")
    ∧ (¬((1 : Rat)/10 ≤ r ∧ r ≤ 2) →
        (adjustThrottle st r).1 = st
        ∧ (adjustThrottle st r).2
            = .failed "Throttle rate must be between 0.1 and 2.0")
    ∧ (((1 : Rat)/10 ≤ r ∧ r ≤ 2) →
        (adjustThrottle st r).1.systemThrottleRate = some r
        ∧ (adjustThrottle st r).2 = .applied r) := by
  refine ⟨⟨rfl, rfl⟩, ?_, ?_⟩
  · intro h
    unfold adjustThrottle
    rw [if_neg h]
    exact ⟨rfl, rfl⟩
  · intro h
    unfold adjustThrottle
    rw [if_pos h]
    exact ⟨rfl, rfl⟩

/-- Witness for C1: applying the theorem at rate 3 (rejected by the worker
task, state unchanged) and rate 0.5 (stored). -/
theorem c1_throttle_validation_witness :
    (adjustThrottle emptyRedis 3).1 = emptyRedis
    ∧ (adjustThrottle emptyRedis (1/2)).1.systemThrottleRate = some (1/2)
    ∧ (setThrottle emptyRedis 3).1.systemThrottleApi = some 3 :=
  ⟨((c1_throttle_validation emptyRedis 3).2.1 (by norm_num)).1,
   ((c1_throttle_validation emptyRedis (1/2)).2.2 (by norm_num)).1,
   (c1_throttle_validation emptyRedis 3).1.1⟩

/-- Counterexample to C1 as stated: the rate 3 lies outside [0.1, 2.0], yet
POST /system/throttle stores it and answers with a success payload instead
of a validation error, changing the stored state. -/
theorem c1_counterexample :
    ¬((1 : Rat)/10 ≤ 3 ∧ (3 : Rat) ≤ 2)
    ∧ (setThrottle emptyRedis 3).1.systemThrottleApi = some 3
    ∧ (setThrottle emptyRedis 3).2.status = "throttled"
    ∧ (setThrottle emptyRedis 3).1 ≠ emptyRedis :=
  ⟨by norm_num, rfl, rfl, by simp [setThrottle, emptyRedis]⟩

/-- C2. The worker's step loop never observes the pause flag: the trace of
the loop is identical whether "system_paused" is set or not, and in
particular a task started under a set pause flag still begins all of its
steps (here three steps of the constant example workload). -/
theorem c2_pause_flag_not_observed :
    (∀ (st : RedisState) (stepOf : Nat → StepResult) (n : Nat),
        runStepLoop { st with systemPaused := true } stepOf n
          = runStepLoop { st with systemPaused := false } stepOf n)
    ∧ (runStepLoop { emptyRedis with systemPaused := true } constSteps 3).length = 3 := by
  constructor
  · intro st stepOf n
    exact (runStepsFrom_pause st true stepOf n 0).trans
      (runStepsFrom_pause st false stepOf n 0).symm
  · rfl

/-- C3. On the final failure of a task the code deletes the active-task
record and stores the failure under "task_failures:id"; it never writes to
the "dead_letter_queue" sorted set, which afterwards is exactly what it was
before. (DeadLetterQueueHandler.add_to_dlq, the only code that writes the
DLQ, has no caller in the repository.) -/
theorem c3_final_failure_skips_dlq (st : RedisState) (taskId : String) :
    (onFailureFinal st taskId).deadLetterQueue = st.deadLetterQueue
    ∧ taskId ∉ (onFailureFinal st taskId).activeTasks
    ∧ taskId ∈ (onFailureFinal st taskId).taskFailures
    ∧ (addToDlq st taskId).deadLetterQueue = taskId :: st.deadLetterQueue := by
  refine ⟨rfl, ?_, ?_, rfl⟩
  · intro hmem
    simp only [onFailureFinal, List.mem_filter] at hmem
    exact absurd hmem.2 (by simp)
  · simp only [onFailureFinal]
    split
    · assumption
    · exact List.mem_cons_self _ _

/-- C4 (amended). Every step's sleep equals the step's simulated duration
plus the throttle addition read from "system_throttle_rate": an extra
(1 - rate) * 2 seconds when the stored rate is below 1.0, and nothing when
the rate is 1.0 or above. The sleep is not the duration multiplied by the
inverse of the rate. -/
theorem c4_step_sleep (st : RedisState) (stepOf : Nat → StepResult) (n i : Nat) (s : Rat)
    (h : StepEvent.progress i s ∈ runStepLoop st stepOf n) :
    s = (stepOf i).duration + throttleExtraSleep (st.systemThrottleRate.getD 1)
    ∧ (st.systemThrottleRate.getD 1 < 1 →
        s = (stepOf i).duration + (1 - st.systemThrottleRate.getD 1) * 2)
    ∧ (1 ≤ st.systemThrottleRate.getD 1 → s = (stepOf i).duration) := by
  have hs := runStepsFrom_progress_sleep st stepOf n 0 i s h
  refine ⟨hs, ?_, ?_⟩
  · intro hr
    rw [hs, throttleExtraSleep, if_pos hr]
  · intro hr
    rw [hs, throttleExtraSleep, if_neg (not_lt.mpr hr), add_zero]

/-- Witness for C4: with stored rate 0.5 and step duration 0.1 the single
step sleeps duration plus (1 - 0.5) * 2 seconds, as the theorem dictates. -/
theorem c4_step_sleep_witness :
    StepEvent.progress 0 (stepSleep stHalf (constSteps 0).duration)
        ∈ runStepLoop stHalf constSteps 1
    ∧ stepSleep stHalf (constSteps 0).duration
        = (constSteps 0).duration + (1 - stHalf.systemThrottleRate.getD 1) * 2 := by
  have hmem : StepEvent.progress 0 (stepSleep stHalf (constSteps 0).duration)
      ∈ runStepLoop stHalf constSteps 1 := by
    simp [runStepLoop, runStepsFrom, constSteps]
  exact ⟨hmem, (c4_step_sleep stHalf constSteps 1 0 _ hmem).2.1
    (by norm_num [stHalf, emptyRedis])⟩

/-- Counterexample to C4 as stated: at rate 0.5 the step of duration 0.1
sleeps 1.1 seconds, not 0.1 / 0.5 = 0.2 (so 0.5 does not double the delay);
at rate 2.0 it sleeps 0.1 seconds, not 0.1 / 2 (no proportional
shortening). -/
theorem c4_counterexample :
    runStepLoop stHalf constSteps 1
      = [StepEvent.progress 0 (stepSleep stHalf (constSteps 0).duration)]
    ∧ stepSleep stHalf (constSteps 0).duration = 11/10
    ∧ (11/10 : Rat) ≠ (constSteps 0).duration * (1 / stHalf.systemThrottleRate.getD 1)
    ∧ stepSleep stDouble (constSteps 0).duration = 1/10
    ∧ (1/10 : Rat) ≠ (constSteps 0).duration * (1 / stDouble.systemThrottleRate.getD 1) := by
  refine ⟨?_, ?_, ?_, ?_, ?_⟩
  · simp [runStepLoop, runStepsFrom, constSteps]
  · norm_num [stepSleep, throttleExtraSleep, stHalf, emptyRedis, constSteps]
  · norm_num [constSteps, stHalf, emptyRedis]
  · norm_num [stepSleep, throttleExtraSleep, stDouble, emptyRedis, constSteps]
  · norm_num [constSteps, stDouble, emptyRedis]

/-- C6 (amended). publish_event reports success exactly when the broadcast
and all three recent-buffer writes succeed: any raise inside the try block,
including one from lpush, ltrim or expire after a successful broadcast, is
caught and makes the publish report failure. -/
theorem c6_publish_result (oc : PublishOutcome) :
    publishEvent oc = (oc.publishOk && oc.lpushOk && oc.ltrimOk && oc.expireOk) := by
  rcases oc with ⟨p, l, t, e⟩
  cases p <;> cases l <;> cases t <;> cases e <;> rfl

/-- Counterexample to C6 as stated: with the broadcast succeeding and the
lpush buffer write raising, publish_event returns False, not success. -/
theorem c6_counterexample :
    (PublishOutcome.mk true false true true).publishOk = true
    ∧ publishEvent (PublishOutcome.mk true false true true) = false :=
  ⟨rfl, rfl⟩

/-- C8. For every agent type, every complexity (zero and negative values
included) and every draw of the random multiplier, calculate_steps returns
at least 5: the result is the maximum of the adjusted step count and 5. -/
theorem c8_steps_floor (a : AgentType) (complexity : Int) (r : Rat) :
    5 ≤ calculateSteps a complexity r := by
  unfold calculateSteps
  exact le_max_right _ _

/-- C10. Constructing an AgentSimulator never rejects the agent-type string:
a string whose lowering matches no enumeration value yields the GPT-3.5
Turbo profile, and a matching string yields its profile. -/
theorem c10_unknown_agent_defaults (s : String) :
    (findAgentType (pyLower s) = none → initAgentType s = AgentType.gpt35turbo)
    ∧ (∀ a, findAgentType (pyLower s) = some a → initAgentType s = a) := by
  constructor
  · intro h
    rw [initAgentType, h]
    rfl
  · intro a h
    rw [initAgentType, h]
    rfl

/-- Witness for C10: the unknown string "wizard-9000" maps to GPT-3.5 Turbo
and the known (upper-case) string "GPT-4" maps to GPT-4. -/
theorem c10_unknown_agent_defaults_witness :
    initAgentType "wizard-9000" = AgentType.gpt35turbo
    ∧ initAgentType "GPT-4" = AgentType.gpt4 :=
  ⟨(c10_unknown_agent_defaults "wizard-9000").1 (by decide),
   (c10_unknown_agent_defaults "GPT-4").2 AgentType.gpt4 (by decide)⟩

/-- C5 (amended). Every subscription's queue capacity is the 1000 fixed in
the constructor: the later reassignment of the max_queue_size attribute to
max(100, 2 N) does not touch the already-built queue. The queue size never
exceeds that capacity; when an event arrives with the queue at capacity the
oldest queued event is dropped and the new one appended. No drop counter
exists in the code (only a log line). -/
theorem c5_queue_capacity (n : Nat) (c : SSEConnection) (e : Nat)
    (hc : c.eventQueue.length ≤ c.queueCapacity) :
    (streamEventsConn n).queueCapacity = 1000
    ∧ (streamEventsConn n).maxQueueSize = max 100 (n * 2)
    ∧ (handleEvent c e).queueCapacity = c.queueCapacity
    ∧ (handleEvent c e).eventQueue.length ≤ c.queueCapacity
    ∧ (c.eventQueue.length = c.queueCapacity →
        ∀ hd tl, c.eventQueue = hd :: tl → (handleEvent c e).eventQueue = tl ++ [e]) := by
  refine ⟨rfl, rfl, ?_, ?_, ?_⟩
  · unfold handleEvent
    split
    · rfl
    · split <;> rfl
  · by_cases hlt : c.eventQueue.length < c.queueCapacity
    · simp only [handleEvent, if_pos hlt, List.length_append, List.length_cons,
        List.length_nil]
      omega
    · have heq : c.eventQueue.length = c.queueCapacity := le_antisymm hc (not_lt.mp hlt)
      cases hcq : c.eventQueue with
      | nil =>
        have hcap : c.queueCapacity = 0 := by rw [hcq] at heq; exact heq.symm
        simp [handleEvent, hcq, hcap]
      | cons hd tl =>
        rw [hcq] at heq
        simp only [List.length_cons] at heq
        have hnlt2 : ¬ (tl.length + 1 < c.queueCapacity) := by omega
        simp only [handleEvent, hcq, List.length_cons, if_neg hnlt2, List.length_append,
          List.length_nil]
        omega
  · intro heq hd tl hcq
    rw [hcq] at heq
    simp only [List.length_cons] at heq
    have hnlt2 : ¬ (tl.length + 1 < c.queueCapacity) := by omega
    simp [handleEvent, hcq, if_neg hnlt2]

/-- Witness for C5: a fresh subscription with replay 0 has capacity 1000 and
absorbs an event without exceeding it. -/
theorem c5_queue_capacity_witness :
    (streamEventsConn 0).queueCapacity = 1000
    ∧ (handleEvent (streamEventsConn 0) 7).eventQueue.length
        ≤ (streamEventsConn 0).queueCapacity :=
  ⟨(c5_queue_capacity 0 (streamEventsConn 0) 7 (by decide)).1,
   (c5_queue_capacity 0 (streamEventsConn 0) 7 (by decide)).2.2.2.1⟩

set_option maxRecDepth 8000 in
/-- Counterexample to C5 as stated: for replay size 50 the claimed capacity
is max(100, 2 by 50) = 100, but the queue was built with capacity 1000, and
delivering 101 events grows it to length 101, beyond the claimed
capacity. -/
theorem c5_counterexample :
    (streamEventsConn 50).queueCapacity = 1000
    ∧ max 100 (2 * 50) = 100
    ∧ (1000 : Nat) ≠ 100
    ∧ (handleEvents (streamEventsConn 50) (List.range 101)).eventQueue.length = 101
    ∧ 100 < 101 :=
  ⟨rfl, rfl, by decide, by decide, by decide⟩

/-- Heappushing an event leaves it in the queue. -/
theorem pqInsert_mem (e : AggEvent) : ∀ l, e ∈ pqInsert e l
  | [] => List.mem_singleton.mpr rfl
  | h :: t => by
    unfold pqInsert
    split
    · exact List.mem_cons_of_mem h (pqInsert_mem e t)
    · exact List.mem_cons_self e (h :: t)

/-- When every queued event is older than the cutoff, the drain pops the
whole queue in order. -/
theorem drainList_all (cutoff : Int) :
    ∀ l, (∀ x ∈ l, x.timestamp < cutoff) → drainList cutoff l = (l, [])
  | [], _ => rfl
  | h :: t, hall => by
    have ht := drainList_all cutoff t (fun x hx => hall x (List.mem_cons_of_mem h hx))
    simp [drainList, hall h (List.mem_cons_self h t), ht]

/-- C9 (amended). Under the priority-queue strategy every processed event is
heappushed onto the priority queue. An event of priority HIGH (3) or
CRITICAL is then output immediately, leaving the open batch untouched. A
lower-priority event is not output immediately as itself: it joins the open
batch (created at the current time if absent), and when the batch reaches
max_batch_size or its age reaches max_delay it is flushed as a single batch
output, otherwise the outputs are unchanged. The periodic drain outputs
every queued event individually once the cutoff has passed its timestamp —
the processed event among them — so events are delivered again, not exactly
once. -/
theorem c9_priority_queue (cfg : PQConfig) (t u : Int) (st : AggPQState) (e : AggEvent) :
    e ∈ (handlePriorityQueue cfg t st e).pq
    ∧ (3 ≤ e.priority →
        (handlePriorityQueue cfg t st e).outputs = st.outputs ++ [Sum.inl e]
        ∧ (handlePriorityQueue cfg t st e).batch = st.batch)
    ∧ (e.priority < 3 →
        ¬ (cfg.maxBatchSize ≤ ((st.batch.getD (t, [])).2 ++ [e]).length
            ∨ cfg.maxDelaySec ≤ t - (st.batch.getD (t, [])).1) →
          (handlePriorityQueue cfg t st e).outputs = st.outputs
          ∧ (handlePriorityQueue cfg t st e).batch
              = some ((st.batch.getD (t, [])).1, (st.batch.getD (t, [])).2 ++ [e]))
    ∧ (e.priority < 3 →
        (cfg.maxBatchSize ≤ ((st.batch.getD (t, [])).2 ++ [e]).length
            ∨ cfg.maxDelaySec ≤ t - (st.batch.getD (t, [])).1) →
          (handlePriorityQueue cfg t st e).outputs
            = st.outputs ++ flushBatchOutput cfg t ((st.batch.getD (t, [])).2 ++ [e])
          ∧ (handlePriorityQueue cfg t st e).batch = none)
    ∧ ((∀ x ∈ (handlePriorityQueue cfg t st e).pq, x.timestamp < u - 1) →
        (flushPriorityQueue u (handlePriorityQueue cfg t st e)).outputs
          = (handlePriorityQueue cfg t st e).outputs
            ++ (handlePriorityQueue cfg t st e).pq.map
                (Sum.inl : AggEvent → AggEvent ⊕ AggOutEvent)
        ∧ (Sum.inl e : AggEvent ⊕ AggOutEvent)
            ∈ (handlePriorityQueue cfg t st e).pq.map
                (Sum.inl : AggEvent → AggEvent ⊕ AggOutEvent)) := by
  have hpqe : (handlePriorityQueue cfg t st e).pq = pqInsert e st.pq := by
    by_cases hp : 3 ≤ e.priority
    · simp only [handlePriorityQueue, if_pos hp]
    · simp only [handlePriorityQueue, if_neg hp]
      split <;> rfl
  refine ⟨?_, ?_, ?_, ?_, ?_⟩
  · rw [hpqe]
    exact pqInsert_mem e st.pq
  · intro hp
    refine ⟨?_, ?_⟩ <;> simp only [handlePriorityQueue, if_pos hp]
  · intro hp hnc
    have hp2 : ¬ 3 ≤ e.priority := by omega
    refine ⟨?_, ?_⟩ <;> simp only [handlePriorityQueue, if_neg hp2, if_neg hnc]
  · intro hp hc
    have hp2 : ¬ 3 ≤ e.priority := by omega
    refine ⟨?_, ?_⟩ <;> simp only [handlePriorityQueue, if_neg hp2, if_pos hc]
  · intro hall
    have hd := drainList_all (u - 1) (handlePriorityQueue cfg t st e).pq hall
    refine ⟨?_, ?_⟩
    · simp only [flushPriorityQueue, hd]
    · rw [hpqe]
      exact List.mem_map_of_mem Sum.inl (pqInsert_mem e st.pq)

/-- Witness for C9: the HIGH alert at time 0 is output on arrival and output
again by the drain at time 5, while the LOW alert produces no immediate
output and joins the open batch. -/
theorem c9_priority_queue_witness :
    (handlePriorityQueue pqCfgAlert 0 emptyPQ exHigh).outputs
      = emptyPQ.outputs ++ [Sum.inl exHigh]
    ∧ (handlePriorityQueue pqCfgAlert 0 emptyPQ exLow).outputs = emptyPQ.outputs
    ∧ (handlePriorityQueue pqCfgAlert 0 emptyPQ exLow).batch = some (0, [exLow])
    ∧ (flushPriorityQueue 5 (handlePriorityQueue pqCfgAlert 0 emptyPQ exHigh)).outputs
        = (handlePriorityQueue pqCfgAlert 0 emptyPQ exHigh).outputs
          ++ (handlePriorityQueue pqCfgAlert 0 emptyPQ exHigh).pq.map Sum.inl :=
  ⟨((c9_priority_queue pqCfgAlert 0 5 emptyPQ exHigh).2.1 (by decide)).1,
   ((c9_priority_queue pqCfgAlert 0 5 emptyPQ exLow).2.2.1 (by decide) (by decide)).1,
   (((c9_priority_queue pqCfgAlert 0 5 emptyPQ exLow).2.2.1 (by decide) (by decide)).2).trans
     (by rfl),
   ((c9_priority_queue pqCfgAlert 0 5 emptyPQ exHigh).2.2.2.2 (by decide)).1⟩

/-- Counterexample to C9 as stated: processing one HIGH event and draining
one tick later delivers the same event twice, not exactly once. -/
theorem c9_counterexample :
    (flushPriorityQueue 5 (handlePriorityQueue pqCfgAlert 0 emptyPQ exHigh)).outputs
      = [Sum.inl exHigh, Sum.inl exHigh]
    ∧ ((flushPriorityQueue 5 (handlePriorityQueue pqCfgAlert 0 emptyPQ exHigh)).outputs.count
        (Sum.inl exHigh)) = 2 :=
  ⟨rfl, rfl⟩

/-- A fold of min over a nonempty list (split as head and tail) is in it. -/
theorem foldlMin_cons_mem {α : Type} [LinearOrder α] (v : α) (vs : List α) :
    vs.foldl min v ∈ v :: vs := by
  rcases foldlMin_mem vs v with h | h
  · rw [h]; exact List.mem_cons_self v vs
  · exact List.mem_cons_of_mem v h

/-- A fold of min over a nonempty list is below each of its elements. -/
theorem foldlMin_cons_le {α : Type} [LinearOrder α] (v : α) (vs : List α) :
    ∀ x ∈ v :: vs, vs.foldl min v ≤ x := by
  intro x hx
  rcases List.mem_cons.mp hx with rfl | hx
  · exact foldlMin_le_init vs x
  · exact foldlMin_le_mem vs v x hx

/-- A fold of max over a nonempty list (split as head and tail) is in it. -/
theorem foldlMax_cons_mem {α : Type} [LinearOrder α] (v : α) (vs : List α) :
    vs.foldl max v ∈ v :: vs := by
  rcases foldlMax_mem vs v with h | h
  · rw [h]; exact List.mem_cons_self v vs
  · exact List.mem_cons_of_mem v h

/-- A fold of max over a nonempty list is above each of its elements. -/
theorem foldlMax_cons_le {α : Type} [LinearOrder α] (v : α) (vs : List α) :
    ∀ x ∈ v :: vs, x ≤ vs.foldl max v := by
  intro x hx
  rcases List.mem_cons.mp hx with rfl | hx
  · exact foldlMax_init_le vs x
  · exact foldlMax_mem_le vs v x hx

/-- When every event of a batch carries a field, the field's value list has
exactly one entry per event. -/
theorem fieldValues_length (f : String) :
    ∀ (es : List AggEvent), (∀ e ∈ es, ((e.data).lookup f).isSome) →
      (fieldValues es f).length = es.length
  | [], _ => rfl
  | e :: es, hall => by
    obtain ⟨v, hv⟩ := Option.isSome_iff_exists.mp (hall e (List.mem_cons_self e es))
    have ht := fieldValues_length f es (fun x hx => hall x (List.mem_cons_of_mem e hx))
    simp only [fieldValues, List.filterMap_cons, hv, List.length_cons] at ht ⊢
    omega

/-- The merged-field list binds each configured field with a nonempty value
list to the statistics of that value list. -/
theorem buildMerged_lookup (events : List AggEvent) (f : String) :
    ∀ (cfg : List String), f ∈ cfg → fieldValues events f ≠ [] →
      ∃ v vs, fieldValues events f = v :: vs
        ∧ (buildMerged cfg events).lookup f = some (mkStats v vs)
  | [], hf, _ => absurd hf (List.not_mem_nil f)
  | g :: cfg, hf, hne => by
    by_cases hfg : f = g
    · subst hfg
      cases hfv : fieldValues events f with
      | nil => exact absurd hfv hne
      | cons v vs =>
        refine ⟨v, vs, rfl, ?_⟩
        simp [buildMerged, hfv, List.lookup]
    · have hmem : f ∈ cfg := (List.mem_cons.mp hf).resolve_left hfg
      obtain ⟨v, vs, h1, h2⟩ := buildMerged_lookup events f cfg hmem hne
      refine ⟨v, vs, h1, ?_⟩
      cases hfv : fieldValues events g with
      | nil => simpa [buildMerged, hfv] using h2
      | cons w ws =>
        simpa [buildMerged, hfv, List.lookup, beq_eq_false_iff_ne.mpr hfg] using h2

/-- C7. A batch of N = 2 or more events flushes to a single aggregated event
whose payload carries batch_size = N, the ids of all N inputs, a time span
running from the minimum to the maximum input timestamp (so end is at least
start), and whose priority is the highest input priority; every configured
merge field carried (numerically) by all N inputs is bound to statistics
with count = N, the sum of the values, avg = sum / count, and min and max
that belong to the value list and bound it from below and above. -/
theorem c7_aggregated_event (cfg : List String) (now : Int) (a b : AggEvent)
    (l : List AggEvent) :
    ∃ out : AggOutEvent,
      createAggregatedEvent cfg now (a :: b :: l) = some (Sum.inr out)
      ∧ out.data.batchSize = (a :: b :: l).length
      ∧ out.data.eventIds = (a :: b :: l).map (fun e => e.id)
      ∧ out.data.timeSpanStart ≤ out.data.timeSpanEnd
      ∧ (∀ e ∈ a :: b :: l,
          out.data.timeSpanStart ≤ e.timestamp ∧ e.timestamp ≤ out.data.timeSpanEnd)
      ∧ out.data.timeSpanStart ∈ (a :: b :: l).map (fun e => e.timestamp)
      ∧ out.data.timeSpanEnd ∈ (a :: b :: l).map (fun e => e.timestamp)
      ∧ (∀ e ∈ a :: b :: l, e.priority ≤ out.priority)
      ∧ out.priority ∈ (a :: b :: l).map (fun e => e.priority)
      ∧ (∀ f ∈ cfg, (∀ e ∈ a :: b :: l, ((e.data).lookup f).isSome) →
          ∃ stats : MergeStats,
            (out.data.mergedFields).lookup f = some stats
            ∧ stats.count = (a :: b :: l).length
            ∧ stats.sum = (fieldValues (a :: b :: l) f).sum
            ∧ stats.avg = stats.sum / (stats.count : Rat)
            ∧ stats.min ∈ fieldValues (a :: b :: l) f
            ∧ (∀ v ∈ fieldValues (a :: b :: l) f, stats.min ≤ v)
            ∧ stats.max ∈ fieldValues (a :: b :: l) f
            ∧ (∀ v ∈ fieldValues (a :: b :: l) f, v ≤ stats.max)) := by
  refine ⟨_, rfl, rfl, rfl, ?_, ?_, ?_, ?_, ?_, ?_, ?_⟩
  · show ((b :: l).map fun e => e.timestamp).foldl min a.timestamp
        ≤ ((b :: l).map fun e => e.timestamp).foldl max a.timestamp
    exact le_trans (foldlMin_le_init _ _) (foldlMax_init_le _ _)
  · intro e he
    show ((b :: l).map fun e => e.timestamp).foldl min a.timestamp ≤ e.timestamp
      ∧ e.timestamp ≤ ((b :: l).map fun e => e.timestamp).foldl max a.timestamp
    rcases List.mem_cons.mp he with rfl | he
    · exact ⟨foldlMin_le_init _ _, foldlMax_init_le _ _⟩
    · have hm : e.timestamp ∈ (b :: l).map (fun e => e.timestamp) :=
        List.mem_map_of_mem _ he
      exact ⟨foldlMin_le_mem _ _ _ hm, foldlMax_mem_le _ _ _ hm⟩
  · show ((b :: l).map fun e => e.timestamp).foldl min a.timestamp
        ∈ (a :: b :: l).map (fun e => e.timestamp)
    rw [List.map_cons]
    exact foldlMin_cons_mem _ _
  · show ((b :: l).map fun e => e.timestamp).foldl max a.timestamp
        ∈ (a :: b :: l).map (fun e => e.timestamp)
    rw [List.map_cons]
    exact foldlMax_cons_mem _ _
  · intro e he
    show e.priority ≤ ((b :: l).map fun e => e.priority).foldl max a.priority
    rcases List.mem_cons.mp he with rfl | he
    · exact foldlMax_init_le _ _
    · exact foldlMax_mem_le _ _ _ (List.mem_map_of_mem _ he)
  · show ((b :: l).map fun e => e.priority).foldl max a.priority
        ∈ (a :: b :: l).map (fun e => e.priority)
    rw [List.map_cons]
    exact foldlMax_cons_mem _ _
  · intro f hf hall
    have hlen := fieldValues_length f (a :: b :: l) hall
    have hne : fieldValues (a :: b :: l) f ≠ [] := by
      intro hnil
      rw [hnil] at hlen
      simp at hlen
    obtain ⟨v, vs, hfv, hlk⟩ := buildMerged_lookup (a :: b :: l) f cfg hf hne
    refine ⟨mkStats v vs, ?_, ?_, ?_, rfl, ?_, ?_, ?_, ?_⟩
    · exact hlk
    · show (v :: vs).length = (a :: b :: l).length
      rw [← hfv]
      exact hlen
    · show (v :: vs).sum = (fieldValues (a :: b :: l) f).sum
      rw [hfv]
    · show vs.foldl min v ∈ fieldValues (a :: b :: l) f
      rw [hfv]
      exact foldlMin_cons_mem v vs
    · intro x hx
      exact foldlMin_cons_le v vs x (hfv ▸ hx)
    · show vs.foldl max v ∈ fieldValues (a :: b :: l) f
      rw [hfv]
      exact foldlMax_cons_mem v vs
    · intro x hx
      exact foldlMax_cons_le v vs x (hfv ▸ hx)

/-- Witness for C7: aggregating the two example metrics events yields an
aggregated event of batch size 2 whose payload binds the merge field
"tps". -/
theorem c7_aggregated_event_witness :
    aggOutProp
      (fun o => o.data.batchSize = 2 ∧ ((o.data.mergedFields).lookup "tps").isSome = true)
      (createAggregatedEvent ["tps"] 99 [exM1, exM2]) := by
  obtain ⟨out, hout, hbs, _, _, _, _, _, _, _, hm⟩ :=
    c7_aggregated_event ["tps"] 99 exM1 exM2 []
  obtain ⟨stats, hlk, _⟩ := hm "tps" (List.mem_singleton.mpr rfl) (by decide)
  rw [hout]
  exact ⟨hbs.trans rfl, by rw [hlk]; rfl⟩

end AgentDashboard
